import Mathlib

/-!
Verification development for the rioc client library (src/src/rioc.h,
src/src/rioc_client.c, src/src/rioc_tls.c).  The C data structures and the
client-side control flow are embedded shallowly: pointers become Option or
explicit byte lists, the transport becomes an explicit trace of events, and
machine integers become Nat/Int with explicit reductions where overflow can
occur.
-/

namespace Rioc

/-- Error codes from rioc.h lines 15-23. -/
def RIOC_SUCCESS : Int := 0

def RIOC_ERR_PARAM : Int := -1

def RIOC_ERR_MEM : Int := -2

/-- RIOC_ERR_IO in the source; the name is shortened to avoid clashing
with the Lean core namespace. -/
def RIOC_ERR_Io : Int := -3

def RIOC_ERR_PROTO : Int := -4

def RIOC_ERR_NOENT : Int := -6

/-- Protocol constants, rioc.h lines 26-32. -/
def RIOC_VERSION : Nat := 2

def RIOC_MAGIC : Nat := 0x524F4943

def RIOC_MAX_KEY_SIZE : Nat := 512

/-- rioc.h line 29: 102400 bytes (the comment in the header calls it 100KB). -/
def RIOC_MAX_VALUE_SIZE : Nat := 102400

def RIOC_MAX_BATCH_SIZE : Nat := 128

/-- Commands, rioc.h lines 53-59. -/
def RIOC_CMD_GET : Nat := 1

def RIOC_CMD_INSERT : Nat := 2

def RIOC_CMD_DELETE : Nat := 3

def RIOC_CMD_RANGE_QUERY : Nat := 6

def RIOC_CMD_ATOMIC_INC_DEC : Nat := 7

/-- Flags, rioc.h lines 62-64. -/
def RIOC_FLAG_PIPELINE : Nat := 0x2

def RIOC_FLAG_MORE : Nat := 0x4

/-- TLS chunk size, rioc_tls.c line 13. -/
def RIOC_TLS_CHUNK_SIZE : Nat := 16000

/-! ### Little-endian byte encoding of machine integers

The wire format transmits integers in host byte order (little-endian on the
supported platforms).  An int64_t delta or counter crosses the wire as its
8 raw bytes. -/
/-- Little-endian digits of x, w bytes wide (truncating above 256 pow w). -/
def leBytes : Nat → Nat → List Nat
  | 0, _ => []
  | w + 1, x => x % 256 :: leBytes w (x / 256)

def u64LE (x : Nat) : List Nat := leBytes 8 x

/-- Reassemble a little-endian byte list into a Nat. -/
def bytesToU64 (bs : List Nat) : Nat :=
  bs.foldr (fun b acc => b % 256 + 256 * acc) 0

/-- The 8 bytes of an int64_t value in native (little-endian) order, as
produced by taking the address of the C variable. -/
def i64ToBytes (x : Int) : List Nat := u64LE (x % (2 ^ 64)).toNat

/-- Reading 8 bytes back into an int64_t (the memcpy into an int64_t in
rioc_atomic_inc_dec). -/
def bytesToI64 (bs : List Nat) : Int :=
  if bytesToU64 bs < 2 ^ 63 then (bytesToU64 bs : Int) else (bytesToU64 bs : Int) - 2 ^ 64

/-! ### Data model

struct rioc_op_header, rioc_batch_header, rioc_batch_op and rioc_batch from
rioc.h lines 92-165.  A C pointer that may be NULL is an Option; the
value_ptr field of a batch op is a tagged pointer: null, a pointer into the
staging value_buffer of the batch, a freshly malloc-ed heap buffer filled by
the response thread, or a malloc-ed array of range results.  A heap byte
that the code never writes is modelled as Option.none inside the buffer. -/
structure OpHeader where
  command : Nat
  key_len : Nat
  value_len : Nat
  timestamp : Nat
deriving DecidableEq, Inhabited

structure BatchHeader where
  magic : Nat
  version : Nat
  count : Nat
  flags : Nat
deriving DecidableEq, Inhabited

/-- One decoded entry of a range-query result (struct rioc_range_result).
key and value are the malloc-ed buffers, including any terminator byte;
key_len and value_len are the reported lengths. -/
structure RangeEntry where
  key : List (Option Nat)
  key_len : Nat
  value : List (Option Nat)
  value_len : Nat
deriving DecidableEq, Inhabited

inductive ValuePtr where
  | null
  | staged (bs : List Nat)
  | heap (buf : List (Option Nat))
  | range (rs : List RangeEntry)
deriving DecidableEq, Inhabited

structure BatchOp where
  header : OpHeader
  key : List Nat
  value_ptr : ValuePtr
  resp_status : Int
  resp_value_len : Nat
deriving DecidableEq, Inhabited

structure Batch where
  batch_header : BatchHeader
  ops : List BatchOp
deriving DecidableEq, Inhabited

/-- rioc_batch_create, rioc_client.c lines 406-430: a zeroed batch whose
header carries the magic, the version and the Pipeline and More flags. -/
def rioc_batch_create : Batch :=
  { batch_header :=
      { magic := RIOC_MAGIC, version := RIOC_VERSION, count := 0,
        flags := RIOC_FLAG_PIPELINE ||| RIOC_FLAG_MORE },
    ops := [] }

/-- batch_add_op, rioc_client.c lines 433-492.  The key and value pointers
may be NULL (Option.none); key_len and value_len are the caller-supplied
lengths, as in C.  On a parameter violation the batch is returned
untouched. -/
def batch_add_op (b : Batch) (command : Nat) (key? : Option (List Nat)) (key_len : Nat)
    (value? : Option (List Nat)) (value_len : Nat) (timestamp : Nat) : Int × Batch :=
  match key? with
  | none => (RIOC_ERR_PARAM, b)
  | some key =>
    if key_len > RIOC_MAX_KEY_SIZE
        ∨ (value? ≠ none ∧ value_len > RIOC_MAX_VALUE_SIZE)
        ∨ b.ops.length ≥ RIOC_MAX_BATCH_SIZE then
      (RIOC_ERR_PARAM, b)
    else
      (RIOC_SUCCESS,
        { b with ops := b.ops ++
            [{ header :=
                 { command := command, key_len := key_len, value_len := value_len,
                   timestamp := timestamp },
               key := key.take key_len,
               value_ptr :=
                 match value? with
                 | some v => if value_len > 0 then ValuePtr.staged (v.take value_len)
                             else ValuePtr.null
                 | none => ValuePtr.null,
               resp_status := 0,
               resp_value_len := 0 }] })

def rioc_batch_add_get (b : Batch) (key? : Option (List Nat)) (key_len : Nat) : Int × Batch :=
  batch_add_op b RIOC_CMD_GET key? key_len none 0 0

def rioc_batch_add_insert (b : Batch) (key? : Option (List Nat)) (key_len : Nat)
    (value? : Option (List Nat)) (value_len : Nat) (timestamp : Nat) : Int × Batch :=
  batch_add_op b RIOC_CMD_INSERT key? key_len value? value_len timestamp

def rioc_batch_add_delete (b : Batch) (key? : Option (List Nat)) (key_len : Nat)
    (timestamp : Nat) : Int × Batch :=
  batch_add_op b RIOC_CMD_DELETE key? key_len none 0 timestamp

/-- rioc_batch_add_atomic_inc_dec, rioc_client.c lines 555-559: the delta is
staged as the 8 raw bytes of the int64_t. -/
def rioc_batch_add_atomic_inc_dec (b : Batch) (key? : Option (List Nat)) (key_len : Nat)
    (increment : Int) (timestamp : Nat) : Int × Batch :=
  batch_add_op b RIOC_CMD_ATOMIC_INC_DEC key? key_len (some (i64ToBytes increment)) 8 timestamp

/-- rioc_batch_add_range_query, rioc_client.c lines 508-553: its own check
(both key lengths against RIOC_MAX_KEY_SIZE and the batch count); the end
key is staged in the value slot and value_len is its length. -/
def rioc_batch_add_range_query (b : Batch) (start_key? : Option (List Nat)) (start_key_len : Nat)
    (end_key? : Option (List Nat)) (end_key_len : Nat) : Int × Batch :=
  match start_key?, end_key? with
  | some sk, some ek =>
    if start_key_len > RIOC_MAX_KEY_SIZE ∨ end_key_len > RIOC_MAX_KEY_SIZE
        ∨ b.ops.length ≥ RIOC_MAX_BATCH_SIZE then
      (RIOC_ERR_PARAM, b)
    else
      (RIOC_SUCCESS,
        { b with ops := b.ops ++
            [{ header :=
                 { command := RIOC_CMD_RANGE_QUERY, key_len := start_key_len,
                   value_len := end_key_len, timestamp := 0 },
               key := sk.take start_key_len,
               value_ptr :=
                 if end_key_len > 0 then ValuePtr.staged (ek.take end_key_len)
                 else ValuePtr.null,
               resp_status := 0,
               resp_value_len := 0 }] })
  | _, _ => (RIOC_ERR_PARAM, b)

/-- The batches reachable through the public batch-assembly API: created by
rioc_batch_create and grown by any sequence of add calls (successful or
not). -/
inductive BatchReachable : Batch → Prop where
  | create : BatchReachable rioc_batch_create
  | add_get (b : Batch) (k : Option (List Nat)) (kl : Nat) :
      BatchReachable b → BatchReachable (rioc_batch_add_get b k kl).2
  | add_insert (b : Batch) (k : Option (List Nat)) (kl : Nat) (v : Option (List Nat))
      (vl ts : Nat) :
      BatchReachable b → BatchReachable (rioc_batch_add_insert b k kl v vl ts).2
  | add_delete (b : Batch) (k : Option (List Nat)) (kl ts : Nat) :
      BatchReachable b → BatchReachable (rioc_batch_add_delete b k kl ts).2
  | add_atomic (b : Batch) (k : Option (List Nat)) (kl : Nat) (inc : Int) (ts : Nat) :
      BatchReachable b → BatchReachable (rioc_batch_add_atomic_inc_dec b k kl inc ts).2
  | add_range (b : Batch) (sk : Option (List Nat)) (skl : Nat) (ek : Option (List Nat))
      (ekl : Nat) :
      BatchReachable b → BatchReachable (rioc_batch_add_range_query b sk skl ek ekl).2

/-! ### Client transmissions

Every client send starts with a batch header followed by, per operation, an
op header, the key bytes and (when a value pointer is present) the value
bytes.  A transmission is modelled at the framing level: the header record
plus the per-op segments in order. -/
structure Transmission where
  header : BatchHeader
  ops : List (OpHeader × List Nat × List Nat)
deriving DecidableEq, Inhabited

/-- The value bytes an op contributes to the submit iovec list: present only
when its value_ptr is non-NULL (rioc_batch_execute_async lines 629-633); at
submit time the pointer is a staging pointer. -/
def opSegment (op : BatchOp) : OpHeader × List Nat × List Nat :=
  (op.header, op.key,
    match op.value_ptr with
    | ValuePtr.staged bs => bs
    | _ => [])

/-- send_op, rioc_client.c lines 171-207: a one-op transmission whose batch
header is rebuilt every call with count 1 and flags Pipeline or-ed with
More. -/
def send_op_tx (command : Nat) (key : List Nat) (value : List Nat) (timestamp : Nat) :
    Transmission :=
  { header :=
      { magic := RIOC_MAGIC, version := RIOC_VERSION, count := 1,
        flags := RIOC_FLAG_PIPELINE ||| RIOC_FLAG_MORE },
    ops := [({ command := command, key_len := key.length, value_len := value.length,
               timestamp := timestamp }, key, value)] }

/-- The request side of rioc_range_query, rioc_client.c lines 1084-1116:
its own one-op transmission with the end key in the value position. -/
def range_query_tx (start_key end_key : List Nat) : Transmission :=
  { header :=
      { magic := RIOC_MAGIC, version := RIOC_VERSION, count := 1,
        flags := RIOC_FLAG_PIPELINE ||| RIOC_FLAG_MORE },
    ops := [({ command := RIOC_CMD_RANGE_QUERY, key_len := start_key.length,
               value_len := end_key.length, timestamp := 0 }, start_key, end_key)] }

/-- rioc_batch_execute_async line 587: the u16 count field is written from
the accumulated op count just before the send (reduced mod 2 pow 16 as a
uint16_t store). -/
def batch_with_count (b : Batch) : Batch :=
  { b with batch_header := { b.batch_header with count := b.ops.length % 2 ^ 16 } }

/-- The transmission built by rioc_batch_execute_async, lines 589-663. -/
def batch_submit_tx (b : Batch) : Transmission :=
  { header := (batch_with_count b).batch_header, ops := b.ops.map opSegment }

/-! ### Client session state and submit

struct rioc_client (rioc.h lines 114-118) holds a socket, a sequence number
and an optional TLS context - nothing else; in particular no record of past
transport errors.  The transport outcome of the vectored send is an
explicit parameter. -/
structure RiocClient where
  fd : Int
  sequence : Nat
  tls : Bool
deriving DecidableEq, Inhabited

structure SubmitResult where
  tracker_batch : Option Batch
  io_attempted : Bool
  client_after : RiocClient
deriving DecidableEq, Inhabited

/-- rioc_batch_execute_async, rioc_client.c lines 569-682, at the level of
session state and transport interaction: a NULL or empty batch is rejected
before any I/O; otherwise the vectored send is always attempted, and on
failure the function returns NULL leaving the client record untouched.
tracker_batch = some b means a tracker holding b was produced. -/
def rioc_batch_execute_async (c : RiocClient) (b? : Option Batch) (sendOk : Bool) :
    SubmitResult :=
  match b? with
  | none => { tracker_batch := none, io_attempted := false, client_after := c }
  | some b =>
    if b.ops.length = 0 then
      { tracker_batch := none, io_attempted := false, client_after := c }
    else if sendOk then
      { tracker_batch := some (batch_with_count b), io_attempted := true, client_after := c }
    else
      { tracker_batch := none, io_attempted := true, client_after := c }

/-! ### Response thread

response_thread_func, rioc_client.c lines 685-925.  The server sends, per
op and in request order, a response header (status, value_len) followed by
a payload whose shape the client determines from the op command it sent.
The per-op wire input is modelled with the payload stream already split:
bytes available for a Get or AtomicIncDec read, and raw key/value entry
pairs for a RangeQuery read.  A stream shorter than what the code asks to
read is a failed recv (the return differs from the requested size). -/
structure OpResp where
  status : Int
  value_len : Nat
  bytes : List Nat
  entries : List (List Nat × List Nat)
deriving DecidableEq, Inhabited

/-- A malloc-ed buffer holding the bytes bs plus a written NUL terminator. -/
def nulTerm (bs : List Nat) : List (Option Nat) := bs.map some ++ [some 0]

/-- Decoding of one range entry: key and value are copied into fresh
buffers of length len + 1 and NUL-terminated (lines 831-910 on the batch
path, lines 1230-1289 on the sync path). -/
def mkRangeEntry (e : List Nat × List Nat) : RangeEntry :=
  { key := nulTerm e.1, key_len := e.1.length,
    value := nulTerm e.2, value_len := e.2.length }

/-- One iteration of the response loop (lines 700-919).  The status and
value_len of the response header are stored unconditionally; the payload is
then read based only on the op command and value_len (the status is not
consulted).  Returns the updated op and whether the iteration succeeded;
on a failed payload read the header fields are already stored. -/
def processOp (op : BatchOp) (r : OpResp) : BatchOp × Bool :=
  let op1 := { op with resp_status := r.status, resp_value_len := r.value_len }
  if (op1.header.command = RIOC_CMD_GET ∨ op1.header.command = RIOC_CMD_ATOMIC_INC_DEC)
      ∧ 0 < r.value_len then
    if r.bytes.length < r.value_len then (op1, false)
    else
      let tbyte : Option Nat := if op1.header.command = RIOC_CMD_GET then some 0 else none
      ({ op1 with value_ptr := ValuePtr.heap ((r.bytes.take r.value_len).map some ++ [tbyte]) },
        true)
  else if op1.header.command = RIOC_CMD_RANGE_QUERY ∧ 0 < r.value_len then
    if r.entries.length < r.value_len then (op1, false)
    else
      ({ op1 with value_ptr := ValuePtr.range ((r.entries.take r.value_len).map mkRangeEntry) },
        true)
  else (op1, true)

/-- The full response loop: processes ops in order against the list of
per-op wire inputs, returning the updated ops, the responses_received
high-water mark and the aggregate error code. -/
def runReceiver : List BatchOp → List OpResp → List BatchOp × Nat × Int
  | [], _ => ([], 0, RIOC_SUCCESS)
  | op :: rest, [] => (op :: rest, 0, RIOC_ERR_Io)
  | op :: rest, r :: rs =>
    match processOp op r with
    | (op1, true) =>
      match runReceiver rest rs with
      | (rest1, n, e) => (op1 :: rest1, n + 1, e)
    | (op1, false) => (op1 :: rest, 0, RIOC_ERR_Io)

/-- struct rioc_batch_tracker after the response thread has run. -/
structure Tracker where
  ops : List BatchOp
  responses_received : Nat
  error : Int
  completed : Bool
deriving DecidableEq, Inhabited

def run_response_thread (b : Batch) (resps : List OpResp) : Tracker :=
  match runReceiver b.ops resps with
  | (ops1, n, e) => { ops := ops1, responses_received := n, error := e, completed := true }

/-- rioc_batch_get_response_async, rioc_client.c lines 957-974.  An index
at or past the op count is a parameter error; an index not yet reached by
the high-water mark is an I/O error; otherwise the out-parameters receive
the slot value_ptr and response value_len and the return is the slot
status.  The some/none on the second component records whether the
out-parameters were written. -/
def rioc_batch_get_response_async (t : Tracker) (index : Nat) : Int × Option (ValuePtr × Nat) :=
  if index ≥ t.ops.length then (RIOC_ERR_PARAM, none)
  else if index ≥ t.responses_received then (RIOC_ERR_Io, none)
  else
    ((t.ops.getD index default).resp_status,
      some ((t.ops.getD index default).value_ptr, (t.ops.getD index default).resp_value_len))

/-! ### Synchronous single-op paths -/
/-- The local parameter validation of rioc_insert, rioc_client.c lines
1033-1038, performed before send_op is invoked.  some err means the call
returns err locally with no wire activity; none means the call proceeds to
send_op (wire activity follows). -/
def rioc_insert_local_check (client? key? value? : Bool) (key_len value_len : Nat) :
    Option Int :=
  if ¬client? ∨ ¬key? ∨ ¬value? ∨ key_len > RIOC_MAX_KEY_SIZE
      ∨ value_len > RIOC_MAX_VALUE_SIZE then
    some RIOC_ERR_PARAM
  else none

/-- What the server sends back for one synchronous operation: the response
header status and the value payload bytes that follow it (value_len on the
wire is the payload length). -/
structure ServerResp where
  status : Int
  payload : List Nat
deriving DecidableEq, Inhabited

/-- recv_response, rioc_client.c lines 272-346, on a transport that
delivers the response intact.  wantValue is whether the caller passed
non-NULL value out-parameters.  Returns the function result together with
the state of the out-parameters: the malloc-ed buffer (none when the
pointer was set to NULL or left untouched) and the reported length.  On a
non-success status the function returns that status immediately without
reading a payload. -/
def recv_response (resp : ServerResp) (wantValue : Bool) :
    Int × Option (List (Option Nat)) × Nat :=
  if resp.status ≠ RIOC_SUCCESS then (resp.status, none, 0)
  else if 0 < resp.payload.length ∧ wantValue then
    (RIOC_SUCCESS, some (nulTerm resp.payload), resp.payload.length)
  else (RIOC_SUCCESS, none, 0)

/-- rioc_atomic_inc_dec, rioc_client.c lines 1314-1353, on a transport that
delivers the request and the response resp intact.  After the parameter
check and the send, the response is received; a success status with a
value_len different from 8 is a protocol error; otherwise the 8 payload
bytes are copied into the int64_t result. -/
def rioc_atomic_inc_dec (key? : Option (List Nat)) (key_len : Nat) (resp : ServerResp) :
    Int × Option Int :=
  if key? = none ∨ key_len = 0 ∨ key_len > RIOC_MAX_KEY_SIZE then (RIOC_ERR_PARAM, none)
  else
    match recv_response resp true with
    | (ret, value, value_len) =>
      if ret ≠ RIOC_SUCCESS then (ret, none)
      else if value_len ≠ 8 then (RIOC_ERR_PROTO, none)
      else
        match value with
        | some buf => (RIOC_SUCCESS, some (bytesToI64 ((buf.take 8).map (fun b => b.getD 0))))
        | none => (RIOC_ERR_PROTO, none)

/-- rioc_range_query, rioc_client.c lines 1072-1294, on a transport that
delivers the request intact: the parameter check, then the response header
(status, count), then count entries are decoded, each into freshly
NUL-terminated key and value buffers.  A stream holding fewer raw entries
than count is a failed read partway through (RIOC_ERR_Io, results freed). -/
def rioc_range_query (start_key? end_key? : Option (List Nat)) (start_key_len end_key_len : Nat)
    (status : Int) (count : Nat) (raw : List (List Nat × List Nat)) : Int × List RangeEntry :=
  if start_key? = none ∨ end_key? = none ∨ start_key_len > RIOC_MAX_KEY_SIZE
      ∨ end_key_len > RIOC_MAX_KEY_SIZE then
    (RIOC_ERR_PARAM, [])
  else if status ≠ RIOC_SUCCESS then (status, [])
  else if raw.length < count then (RIOC_ERR_Io, [])
  else (RIOC_SUCCESS, (raw.take count).map mkRangeEntry)

/-! ### recv_all

rioc_client.c lines 128-168.  The transport is a trace of recv or readv
outcomes: ok n is a call that returned n bytes (n at least 1), fail e is a
call that returned 0 or -1 with errno e.  recv_all returns the raw recv
result for requests of at most 4096 bytes, and for larger requests loops
until the full length is read, retrying transient errno values. -/
inductive RecvEv where
  | ok (n : Nat)
  | fail (e : Nat)
deriving DecidableEq, Inhabited

def EINTR : Nat := 4

def EAGAIN : Nat := 11

/-- The loop of the large-transfer path (lines 146-165): chunks of at most
65536 bytes, EINTR and EAGAIN retried, any other failure returned as -1.
True means the loop completed the full length. -/
def recvBigLoop : Nat → List RecvEv → Bool
  | 0, _ => true
  | _ + 1, [] => false
  | r + 1, RecvEv.ok n :: rest =>
    let got := min n (min (r + 1) 65536)
    if got = 0 then false else recvBigLoop (r + 1 - got) rest
  | r + 1, RecvEv.fail e :: rest =>
    if e = EINTR ∨ e = EAGAIN then recvBigLoop (r + 1) rest else false

/-- recv_all: for len at most 4096 a single rioc_recv call whose return
value (short count, or -1 on any error, transient included) is passed
straight back to the caller (lines 132-139); for larger len the retrying
loop. -/
def recv_all (len : Nat) (trace : List RecvEv) : Int :=
  if len ≤ 4096 then
    match trace with
    | RecvEv.ok n :: _ => (min n len : Nat)
    | RecvEv.fail _ :: _ => -1
    | [] => -1
  else if recvBigLoop len trace then (len : Int) else -1

/-! ### TLS vectored write

rioc_tls_writev, rioc_tls.c lines 392-447: the iovec buffers are funneled
through a 16000-byte chunk buffer; a chunk is flushed when it becomes full
or when the last piece of the last iovec has been copied in, and any
leftover is flushed after the loop.  The result is the list of chunk
writes, in order, handed to rioc_tls_write. -/
def writevIovLoop : Bool → List Nat → List Nat → List (List Nat) × List Nat
  | _, [], chunk => ([], chunk)
  | isLast, d :: ds, chunk =>
    if min (d :: ds).length (RIOC_TLS_CHUNK_SIZE - chunk.length) =
          RIOC_TLS_CHUNK_SIZE - chunk.length
        ∨ (isLast ∧ (d :: ds).length =
            min (d :: ds).length (RIOC_TLS_CHUNK_SIZE - chunk.length)) then
      match writevIovLoop isLast
          ((d :: ds).drop (min (d :: ds).length (RIOC_TLS_CHUNK_SIZE - chunk.length))) [] with
      | (ws, c1) =>
        ((chunk ++ (d :: ds).take (min (d :: ds).length (RIOC_TLS_CHUNK_SIZE - chunk.length)))
          :: ws, c1)
    else ([], chunk ++ d :: ds)
termination_by _ data chunk => 2 * data.length + chunk.length
decreasing_by
  simp only [List.length_drop, List.length_cons, List.length_nil, RIOC_TLS_CHUNK_SIZE,
    Nat.min_def]
  split <;> omega

/-- The outer for loop over the iovec list, threading the chunk buffer. -/
def writevIovs : List (List Nat) → List Nat → List (List Nat) × List Nat
  | [], chunk => ([], chunk)
  | [iov], chunk => writevIovLoop true iov chunk
  | iov :: iov2 :: rest, chunk =>
    match writevIovLoop false iov chunk with
    | (ws, c1) =>
      match writevIovs (iov2 :: rest) c1 with
      | (ws2, c2) => (ws ++ ws2, c2)

/-- rioc_tls_writev on a healthy TLS session: the sequence of rioc_tls_write
calls it performs, each delivering one chunk. -/
def rioc_tls_writev (iovs : List (List Nat)) : List (List Nat) :=
  match writevIovs iovs [] with
  | (ws, chunk) => if 0 < chunk.length then ws ++ [chunk] else ws

/-- The byte stream a plain-transport vectored send delivers: writev_all
(rioc_client.c lines 54-126) hands the iovec buffers to the kernel in
order until all are consumed, so the peer sees their concatenation. -/
def writev_all_stream (iovs : List (List Nat)) : List Nat := iovs.flatten

/-! ### Claim C2

Spec: after any IoError the next submit on the same session returns
IoError without attempting I/O.  The client struct records no error state,
so a failed submit leaves the session exactly as it was and the next
submit performs I/O normally. -/
def claim_C2_client : RiocClient := { fd := 5, sequence := 0, tls := false }

def claim_C2_batch : Batch := (rioc_batch_add_get rioc_batch_create (some [97]) 1).2

theorem bytesToU64_leBytes (w : Nat) : ∀ n : Nat, bytesToU64 (leBytes w n) = n % 256 ^ w := by
  induction w with
  | zero => intro n; simp [leBytes, bytesToU64, Nat.mod_one]
  | succ w ih =>
    intro n
    show n % 256 % 256 + 256 * bytesToU64 (leBytes w (n / 256)) = n % 256 ^ (w + 1)
    rw [ih (n / 256), Nat.mod_mod_of_dvd n dvd_rfl, pow_succ']
    exact Nat.mod_mul.symm

theorem bytesToI64_i64ToBytes (x : Int) (h1 : -(2 ^ 63) ≤ x) (h2 : x < 2 ^ 63) :
    bytesToI64 (i64ToBytes x) = x := by
  have hlt : x % (2 ^ 64) < 2 ^ 64 := Int.emod_lt_of_pos x (by norm_num)
  have hge : 0 ≤ x % (2 ^ 64) := Int.emod_nonneg x (by norm_num)
  have htn : (((x % (2 ^ 64)).toNat : Nat) : Int) = x % (2 ^ 64) := Int.toNat_of_nonneg hge
  have hmod : x % (2 ^ 64) = x ∨ x % (2 ^ 64) = x + 2 ^ 64 := by omega
  unfold bytesToI64 i64ToBytes u64LE
  rw [bytesToU64_leBytes]
  have h8 : (256 : Nat) ^ 8 = 2 ^ 64 := by norm_num
  rw [h8]
  have hsm : (x % (2 ^ 64)).toNat % 2 ^ 64 = (x % (2 ^ 64)).toNat := by omega
  rw [hsm]
  split <;> omega

theorem i64ToBytes_length (x : Int) : (i64ToBytes x).length = 8 := by
  unfold i64ToBytes u64LE
  rfl

theorem batch_add_op_unchanged_or_extends (b : Batch) (c : Nat) (k? : Option (List Nat))
    (kl : Nat) (v? : Option (List Nat)) (vl ts : Nat) :
    (batch_add_op b c k? kl v? vl ts).2 = b ∨
      (b.ops.length < RIOC_MAX_BATCH_SIZE ∧
        (batch_add_op b c k? kl v? vl ts).2.batch_header = b.batch_header ∧
        (batch_add_op b c k? kl v? vl ts).2.ops.length = b.ops.length + 1) := by
  unfold batch_add_op
  match k? with
  | none => exact Or.inl rfl
  | some key =>
    by_cases h : kl > RIOC_MAX_KEY_SIZE ∨ (v? ≠ none ∧ vl > RIOC_MAX_VALUE_SIZE)
        ∨ b.ops.length ≥ RIOC_MAX_BATCH_SIZE
    · exact Or.inl (by simp [if_pos h])
    · exact Or.inr ⟨by omega, by simp [if_neg h], by simp [if_neg h]⟩

theorem range_add_unchanged_or_extends (b : Batch) (sk? : Option (List Nat)) (skl : Nat)
    (ek? : Option (List Nat)) (ekl : Nat) :
    (rioc_batch_add_range_query b sk? skl ek? ekl).2 = b ∨
      (b.ops.length < RIOC_MAX_BATCH_SIZE ∧
        (rioc_batch_add_range_query b sk? skl ek? ekl).2.batch_header = b.batch_header ∧
        (rioc_batch_add_range_query b sk? skl ek? ekl).2.ops.length = b.ops.length + 1) := by
  unfold rioc_batch_add_range_query
  match sk?, ek? with
  | none, none => exact Or.inl rfl
  | none, some _ => exact Or.inl rfl
  | some _, none => exact Or.inl rfl
  | some sk, some ek =>
    by_cases h : skl > RIOC_MAX_KEY_SIZE ∨ ekl > RIOC_MAX_KEY_SIZE
        ∨ b.ops.length ≥ RIOC_MAX_BATCH_SIZE
    · exact Or.inl (by simp [if_pos h])
    · exact Or.inr ⟨by omega, by simp [if_neg h], by simp [if_neg h]⟩

/-- Invariant of all reachable batches: the header fields set at creation
are never rewritten by the add calls, and the op count never exceeds
RIOC_MAX_BATCH_SIZE. -/
theorem batchReachable_inv (b : Batch) (h : BatchReachable b) :
    b.batch_header.magic = RIOC_MAGIC ∧ b.batch_header.version = RIOC_VERSION ∧
      b.batch_header.flags = (RIOC_FLAG_PIPELINE ||| RIOC_FLAG_MORE) ∧
      b.ops.length ≤ RIOC_MAX_BATCH_SIZE := by
  induction h with
  | create => refine ⟨rfl, rfl, rfl, by simp [rioc_batch_create]⟩
  | add_get b k kl _ ih =>
    rcases batch_add_op_unchanged_or_extends b RIOC_CMD_GET k kl none 0 0 with he | ⟨hlt, hh, hl⟩
    · rw [rioc_batch_add_get, he]; exact ih
    · rw [rioc_batch_add_get] at *
      exact ⟨hh ▸ ih.1, hh ▸ ih.2.1, hh ▸ ih.2.2.1, by omega⟩
  | add_insert b k kl v vl ts _ ih =>
    rcases batch_add_op_unchanged_or_extends b RIOC_CMD_INSERT k kl v vl ts with he | ⟨hlt, hh, hl⟩
    · rw [rioc_batch_add_insert, he]; exact ih
    · rw [rioc_batch_add_insert] at *
      exact ⟨hh ▸ ih.1, hh ▸ ih.2.1, hh ▸ ih.2.2.1, by omega⟩
  | add_delete b k kl ts _ ih =>
    rcases batch_add_op_unchanged_or_extends b RIOC_CMD_DELETE k kl none 0 ts with he | ⟨hlt, hh, hl⟩
    · rw [rioc_batch_add_delete, he]; exact ih
    · rw [rioc_batch_add_delete] at *
      exact ⟨hh ▸ ih.1, hh ▸ ih.2.1, hh ▸ ih.2.2.1, by omega⟩
  | add_atomic b k kl inc ts _ ih =>
    rcases batch_add_op_unchanged_or_extends b RIOC_CMD_ATOMIC_INC_DEC k kl
        (some (i64ToBytes inc)) 8 ts with he | ⟨hlt, hh, hl⟩
    · rw [rioc_batch_add_atomic_inc_dec, he]; exact ih
    · rw [rioc_batch_add_atomic_inc_dec] at *
      exact ⟨hh ▸ ih.1, hh ▸ ih.2.1, hh ▸ ih.2.2.1, by omega⟩
  | add_range b sk skl ek ekl _ ih =>
    rcases range_add_unchanged_or_extends b sk skl ek ekl with he | ⟨hlt, hh, hl⟩
    · rw [he]; exact ih
    · exact ⟨hh ▸ ih.1, hh ▸ ih.2.1, hh ▸ ih.2.2.1, by omega⟩

/-! ### Helper lemmas -/
theorem getD_append_singleton {α : Type} (l : List α) (v d : α) :
    (l ++ [v]).getD l.length d = v := by
  induction l with
  | nil => rfl
  | cons a t ih =>
    simp only [List.cons_append, List.length_cons, List.getD_cons_succ]
    exact ih

theorem nulTerm_length (bs : List Nat) : (nulTerm bs).length = bs.length + 1 := by
  simp [nulTerm]

theorem nulTerm_terminator (bs : List Nat) : (nulTerm bs).getD bs.length none = some 0 := by
  have h := getD_append_singleton (bs.map some) (some 0) none
  rw [List.length_map] at h
  exact h

/-! ### Claim C1

Spec: an insert with a value longer than 100000 bytes is rejected locally
with ParamError before any wire activity; in particular 100001 bytes.
The source constant RIOC_MAX_VALUE_SIZE is 102400, so a 100001-byte value
passes both local checks. -/
/-- Claim C1 counterexample: an insert value of exactly 100001 bytes passes
the local parameter check of rioc_insert (the call proceeds to send_op) and
rioc_batch_add_insert accepts it, contradicting the claimed local
ParamError at 100001 bytes. -/
theorem claim_C1_counterexample :
    rioc_insert_local_check true true true 1 100001 = none ∧
      (rioc_batch_add_insert rioc_batch_create (some [107]) 1
        (some (List.replicate 100001 0)) 100001 5).1 = RIOC_SUCCESS := by
  constructor
  · decide
  · rfl

/-- Claim C1, amended: the value-size limit enforced by rioc_insert and
rioc_batch_add_insert is RIOC_MAX_VALUE_SIZE = 102400 bytes; every insert
whose value_len exceeds 102400 returns ParamError locally before any wire
activity, and the batch add leaves the batch unchanged. -/
theorem claim_C1 (client? key? value? : Bool) (key_len value_len : Nat)
    (h : value_len > RIOC_MAX_VALUE_SIZE) :
    rioc_insert_local_check client? key? value? key_len value_len = some RIOC_ERR_PARAM ∧
      ∀ (b : Batch) (k v : List Nat) (kl ts : Nat),
        rioc_batch_add_insert b (some k) kl (some v) value_len ts = (RIOC_ERR_PARAM, b) := by
  constructor
  · unfold rioc_insert_local_check
    rw [if_pos]
    right; right; right; right; exact h
  · intro b k v kl ts
    simp [rioc_batch_add_insert, batch_add_op, h]

theorem claim_C1_witness :
    102401 > RIOC_MAX_VALUE_SIZE ∧
      rioc_insert_local_check true true true 1 102401 = some RIOC_ERR_PARAM ∧
      rioc_batch_add_insert rioc_batch_create (some [107]) 1 (some (List.replicate 102401 0))
        102401 5 = (RIOC_ERR_PARAM, rioc_batch_create) := by
  refine ⟨by decide, (claim_C1 true true true 1 102401 (by decide)).1, ?_⟩
  exact (claim_C1 true true true 1 102401 (by decide)).2 rioc_batch_create [107]
    (List.replicate 102401 0) 1 5

/-- Claim C2 counterexample: a submit whose vectored send fails (an
IoError-class transport failure) returns NULL and leaves the client record
unchanged; the next submit on that same session attempts I/O and, with the
transport healthy again, produces a tracker instead of returning IoError
without I/O. -/
theorem claim_C2_counterexample :
    (rioc_batch_execute_async claim_C2_client (some claim_C2_batch) false).tracker_batch
        = none ∧
    (rioc_batch_execute_async claim_C2_client (some claim_C2_batch) false).client_after
        = claim_C2_client ∧
    (rioc_batch_execute_async claim_C2_client (some claim_C2_batch) true).io_attempted
        = true ∧
    (rioc_batch_execute_async claim_C2_client (some claim_C2_batch) true).tracker_batch
        ≠ none := by
  decide

/-- Claim C2, amended: the client keeps no record of past transport
failures; a submit of a non-empty batch always attempts the vectored send
regardless of any earlier IoError, never mutates the session state, and on
send failure reports by returning NULL rather than IoError. -/
theorem claim_C2 (c : RiocClient) (b : Batch) (sendOk : Bool) (h : b.ops.length ≠ 0) :
    (rioc_batch_execute_async c (some b) sendOk).client_after = c ∧
    (rioc_batch_execute_async c (some b) sendOk).io_attempted = true ∧
    (sendOk = false → (rioc_batch_execute_async c (some b) sendOk).tracker_batch = none) := by
  cases sendOk <;> simp [rioc_batch_execute_async, h]

theorem claim_C2_witness :
    claim_C2_batch.ops.length ≠ 0 ∧
      (rioc_batch_execute_async claim_C2_client (some claim_C2_batch) false).client_after
        = claim_C2_client := by
  exact ⟨by decide, (claim_C2 claim_C2_client claim_C2_batch false (by decide)).1⟩

/-! ### Claim C5

Spec: recv_all loops until exactly n bytes are read or a hard error
occurs, retrying EINTR, EAGAIN and short reads transparently.  Only the
large-transfer path (len above 4096) loops; the small path makes exactly
one recv call and returns its raw result. -/
/-- Claim C5 counterexample: with an 8-byte request (at most 4096 bytes), a
single transient EINTR makes recv_all return -1 instead of retrying, and a
5-byte short read is returned as the short count 5 rather than being
completed to 8 bytes. -/
theorem claim_C5_counterexample :
    recv_all 8 [RecvEv.fail EINTR] = -1 ∧
      recv_all 8 [RecvEv.ok 5] = 5 ∧ (5 : Int) ≠ 8 := by
  decide

/-- Claim C5, amended: only for requested lengths above 4096 does recv_all
loop until the full length, retrying EINTR and EAGAIN transparently, and
then its result is exactly len or -1; for lengths of at most 4096 bytes it
performs a single recv and returns that raw result to the caller, so the
outcome depends only on the first trace event. -/
theorem claim_C5 (len : Nat) (trace : List RecvEv) (h : 4096 < len) :
    recv_all len (RecvEv.fail EINTR :: trace) = recv_all len trace ∧
    recv_all len (RecvEv.fail EAGAIN :: trace) = recv_all len trace ∧
    (recv_all len trace = (len : Int) ∨ recv_all len trace = -1) ∧
    ∀ (l : Nat) (ev : RecvEv) (tr1 tr2 : List RecvEv), l ≤ 4096 →
      recv_all l (ev :: tr1) = recv_all l (ev :: tr2) := by
  obtain ⟨m, rfl⟩ : ∃ m, len = m + 1 := ⟨len - 1, by omega⟩
  have hc : ¬(m + 1 ≤ 4096) := by omega
  refine ⟨?_, ?_, ?_, ?_⟩
  · simp [recv_all, hc, recvBigLoop, EINTR, EAGAIN]
  · simp [recv_all, hc, recvBigLoop, EINTR, EAGAIN]
  · simp only [recv_all, if_neg hc]
    by_cases hb : recvBigLoop (m + 1) trace = true
    · rw [if_pos hb]; left; rfl
    · rw [if_neg hb]; right; rfl
  · intro l ev tr1 tr2 hl
    simp only [recv_all, if_pos hl]
    cases ev <;> rfl

theorem claim_C5_witness :
    4096 < 5000 ∧
      recv_all 5000 [RecvEv.fail EINTR, RecvEv.ok 5000] = recv_all 5000 [RecvEv.ok 5000] := by
  exact ⟨by decide, (claim_C5 5000 [RecvEv.ok 5000] (by decide)).1⟩

/-! ### Claim C8

Every batch add whose arguments violate a size or count limit returns
ParamError and leaves the batch record (count, ops, staged values)
exactly as it was. -/
/-- Claim C8: add operations with key_len above RIOC_MAX_KEY_SIZE, insert
value_len above RIOC_MAX_VALUE_SIZE, or a batch already holding
RIOC_MAX_BATCH_SIZE operations return ParamError and return the batch
completely unchanged. -/
theorem claim_C8 :
    (∀ (b : Batch) (k : List Nat) (kl : Nat),
      kl > RIOC_MAX_KEY_SIZE ∨ b.ops.length ≥ RIOC_MAX_BATCH_SIZE →
      rioc_batch_add_get b (some k) kl = (RIOC_ERR_PARAM, b)) ∧
    (∀ (b : Batch) (k : List Nat) (kl : Nat) (v : List Nat) (vl ts : Nat),
      kl > RIOC_MAX_KEY_SIZE ∨ vl > RIOC_MAX_VALUE_SIZE ∨
          b.ops.length ≥ RIOC_MAX_BATCH_SIZE →
      rioc_batch_add_insert b (some k) kl (some v) vl ts = (RIOC_ERR_PARAM, b)) ∧
    (∀ (b : Batch) (k : List Nat) (kl ts : Nat),
      kl > RIOC_MAX_KEY_SIZE ∨ b.ops.length ≥ RIOC_MAX_BATCH_SIZE →
      rioc_batch_add_delete b (some k) kl ts = (RIOC_ERR_PARAM, b)) ∧
    (∀ (b : Batch) (k : List Nat) (kl : Nat) (inc : Int) (ts : Nat),
      kl > RIOC_MAX_KEY_SIZE ∨ b.ops.length ≥ RIOC_MAX_BATCH_SIZE →
      rioc_batch_add_atomic_inc_dec b (some k) kl inc ts = (RIOC_ERR_PARAM, b)) ∧
    (∀ (b : Batch) (sk : List Nat) (skl : Nat) (ek : List Nat) (ekl : Nat),
      skl > RIOC_MAX_KEY_SIZE ∨ ekl > RIOC_MAX_KEY_SIZE ∨
          b.ops.length ≥ RIOC_MAX_BATCH_SIZE →
      rioc_batch_add_range_query b (some sk) skl (some ek) ekl = (RIOC_ERR_PARAM, b)) := by
  refine ⟨?_, ?_, ?_, ?_, ?_⟩
  · intro b k kl h
    rcases h with h | h <;> simp [rioc_batch_add_get, batch_add_op, h]
  · intro b k kl v vl ts h
    rcases h with h | h | h <;> simp [rioc_batch_add_insert, batch_add_op, h]
  · intro b k kl ts h
    rcases h with h | h <;> simp [rioc_batch_add_delete, batch_add_op, h]
  · intro b k kl inc ts h
    rcases h with h | h <;> simp [rioc_batch_add_atomic_inc_dec, batch_add_op, h]
  · intro b sk skl ek ekl h
    rcases h with h | h | h <;> simp [rioc_batch_add_range_query, h]

theorem claim_C8_witness :
    (513 > RIOC_MAX_KEY_SIZE ∨ rioc_batch_create.ops.length ≥ RIOC_MAX_BATCH_SIZE) ∧
      rioc_batch_add_get rioc_batch_create (some [97]) 513
        = (RIOC_ERR_PARAM, rioc_batch_create) ∧
      rioc_batch_add_insert rioc_batch_create (some [97]) 1 (some [118]) 102401 0
        = (RIOC_ERR_PARAM, rioc_batch_create) := by
  refine ⟨Or.inl (by decide), claim_C8.1 rioc_batch_create [97] 513 (Or.inl (by decide)), ?_⟩
  exact claim_C8.2.1 rioc_batch_create [97] 1 [118] 102401 0 (Or.inr (Or.inl (by decide)))

/-! ### Claim C9

result(i) for an index not yet reached: the spec says IoError for every
such index including those at or past the op count, but the code checks
index against the op count first and returns ParamError there. -/
/-- Claim C9 counterexample: a one-op batch whose receiver saw no
responses; index 1 exceeds the high-water mark 0, yet
rioc_batch_get_response_async returns ParamError, not IoError, because the
index also reaches the op count. -/
theorem claim_C9_counterexample :
    (rioc_batch_get_response_async
        (run_response_thread (rioc_batch_add_get rioc_batch_create (some [97]) 1).2 []) 1).1
      = RIOC_ERR_PARAM ∧ RIOC_ERR_PARAM ≠ RIOC_ERR_Io := by
  decide

/-- Claim C9, amended: an index below the op count but at or above the
high-water mark of received responses returns IoError with the
out-parameters untouched; an index at or past the op count returns
ParamError instead. -/
theorem claim_C9 (t : Tracker) (i : Nat) :
    (i < t.ops.length → t.responses_received ≤ i →
      rioc_batch_get_response_async t i = (RIOC_ERR_Io, none)) ∧
    (t.ops.length ≤ i → rioc_batch_get_response_async t i = (RIOC_ERR_PARAM, none)) := by
  constructor
  · intro h1 h2
    have hx : ¬ i ≥ t.ops.length := by omega
    have hy : i ≥ t.responses_received := by omega
    simp [rioc_batch_get_response_async, hx, hy]
  · intro h
    have hx : i ≥ t.ops.length := by omega
    simp [rioc_batch_get_response_async, hx]

theorem claim_C9_witness :
    (0 : Nat) < 1 ∧
      rioc_batch_get_response_async
        { ops := [default], responses_received := 0, error := RIOC_ERR_Io, completed := true } 0
      = (RIOC_ERR_Io, none) := by
  refine ⟨by decide, ?_⟩
  have h := (claim_C9
    { ops := [default], responses_received := 0, error := RIOC_ERR_Io, completed := true } 0).1
  exact h (by decide) (by decide)

/-! ### Claim C6

Every client transmission starts with a batch header carrying the magic,
version 2, flags Pipeline|More = 0x6 and a count equal to the number of
operations transmitted. -/
/-- Claim C6: the three transmission paths (send_op behind the synchronous
single-op calls, the synchronous range query, and the batch submit for any
batch assembled through the public API) all emit a batch header with magic
0x524F4943, version 2, flags 0x6 and count equal to the number of
operations in the transmission. -/
theorem claim_C6 :
    (∀ (command : Nat) (key value : List Nat) (ts : Nat),
      (send_op_tx command key value ts).header.magic = 0x524F4943 ∧
      (send_op_tx command key value ts).header.version = 2 ∧
      (send_op_tx command key value ts).header.flags = 0x6 ∧
      (send_op_tx command key value ts).header.count
        = (send_op_tx command key value ts).ops.length) ∧
    (∀ sk ek : List Nat,
      (range_query_tx sk ek).header.magic = 0x524F4943 ∧
      (range_query_tx sk ek).header.version = 2 ∧
      (range_query_tx sk ek).header.flags = 0x6 ∧
      (range_query_tx sk ek).header.count = (range_query_tx sk ek).ops.length) ∧
    (∀ b : Batch, BatchReachable b →
      (batch_submit_tx b).header.magic = 0x524F4943 ∧
      (batch_submit_tx b).header.version = 2 ∧
      (batch_submit_tx b).header.flags = 0x6 ∧
      (batch_submit_tx b).header.count = (batch_submit_tx b).ops.length) := by
  have hflag : RIOC_FLAG_PIPELINE ||| RIOC_FLAG_MORE = 0x6 := by decide
  refine ⟨fun command key value ts => ⟨rfl, rfl, hflag, rfl⟩,
    fun sk ek => ⟨rfl, rfl, hflag, rfl⟩, fun b hb => ?_⟩
  obtain ⟨hm, hv, hf, hl⟩ := batchReachable_inv b hb
  have hcount : (batch_submit_tx b).header.count = b.ops.length % 2 ^ 16 := rfl
  have hops : (batch_submit_tx b).ops.length = b.ops.length := by
    simp [batch_submit_tx]
  refine ⟨hm, hv, ?_, ?_⟩
  · show b.batch_header.flags = 0x6
    rw [hf]; decide
  · rw [hcount, hops, Nat.mod_eq_of_lt]
    have : RIOC_MAX_BATCH_SIZE = 128 := rfl
    omega

theorem claim_C6_witness :
    BatchReachable (rioc_batch_add_get rioc_batch_create (some [97]) 1).2 ∧
      (batch_submit_tx (rioc_batch_add_get rioc_batch_create (some [97]) 1).2).header.count
        = (batch_submit_tx (rioc_batch_add_get rioc_batch_create (some [97]) 1).2).ops.length := by
  have hr : BatchReachable (rioc_batch_add_get rioc_batch_create (some [97]) 1).2 :=
    BatchReachable.add_get rioc_batch_create (some [97]) 1 BatchReachable.create
  exact ⟨hr, (claim_C6.2.2 _ hr).2.2.2⟩

/-! ### Receiver lemmas -/
theorem processOp_resp_fields (op : BatchOp) (r : OpResp) :
    (processOp op r).1.resp_status = r.status ∧ (processOp op r).1.resp_value_len = r.value_len := by
  simp only [processOp]
  split
  · split
    · exact ⟨rfl, rfl⟩
    · exact ⟨rfl, rfl⟩
  · split
    · split
      · exact ⟨rfl, rfl⟩
      · exact ⟨rfl, rfl⟩
    · exact ⟨rfl, rfl⟩

theorem processOp_value_ptr_of_len_zero (op : BatchOp) (r : OpResp) (h : r.value_len = 0) :
    (processOp op r).1.value_ptr = op.value_ptr := by
  simp only [processOp]
  rw [if_neg (by simp [h]), if_neg (by simp [h])]

theorem runReceiver_length (ops : List BatchOp) : ∀ resps : List OpResp,
    (runReceiver ops resps).1.length = ops.length := by
  induction ops with
  | nil => intro resps; rfl
  | cons op rest ih =>
    intro resps
    cases resps with
    | nil => rfl
    | cons r rs =>
      unfold runReceiver
      rcases hp : processOp op r with ⟨op1, ok⟩
      cases ok
      · simp
      · rcases hr : runReceiver rest rs with ⟨rest1, n, e⟩
        have := ih rs
        rw [hr] at this
        simp [this]

theorem runReceiver_received_le (ops : List BatchOp) : ∀ resps : List OpResp,
    (runReceiver ops resps).2.1 ≤ ops.length ∧ (runReceiver ops resps).2.1 ≤ resps.length := by
  induction ops with
  | nil => intro resps; exact ⟨Nat.le_refl 0, Nat.zero_le _⟩
  | cons op rest ih =>
    intro resps
    cases resps with
    | nil => exact ⟨Nat.zero_le _, Nat.le_refl 0⟩
    | cons r rs =>
      unfold runReceiver
      rcases hp : processOp op r with ⟨op1, ok⟩
      cases ok
      · simp
      · rcases hr : runReceiver rest rs with ⟨rest1, n, e⟩
        have h1 := ih rs
        rw [hr] at h1
        simp at h1 ⊢
        omega

theorem runReceiver_slot (ops : List BatchOp) : ∀ (resps : List OpResp) (i : Nat),
    i < (runReceiver ops resps).2.1 →
      (runReceiver ops resps).1.getD i default
        = (processOp (ops.getD i default) (resps.getD i default)).1 := by
  induction ops with
  | nil => intro resps i h; exact absurd h (by simp [runReceiver])
  | cons op rest ih =>
    intro resps i h
    cases resps with
    | nil => exact absurd h (by simp [runReceiver])
    | cons r rs =>
      rw [runReceiver] at h ⊢
      rcases hp : processOp op r with ⟨op1, ok⟩
      rw [hp] at h
      cases ok
      · simp at h
      · rcases hr : runReceiver rest rs with ⟨rest1, n, e⟩
        rw [hr] at h
        simp at h
        cases i with
        | zero => simp [hp]
        | succ j =>
          have h2 := ih rs j
          rw [hr] at h2
          simp at h2 ⊢
          exact h2 (by omega)

theorem runReceiver_error_cases (ops : List BatchOp) : ∀ resps : List OpResp,
    (runReceiver ops resps).2.2 = RIOC_SUCCESS ∨ (runReceiver ops resps).2.2 = RIOC_ERR_Io := by
  induction ops with
  | nil => intro resps; left; rfl
  | cons op rest ih =>
    intro resps
    cases resps with
    | nil => right; rfl
    | cons r rs =>
      unfold runReceiver
      rcases hp : processOp op r with ⟨op1, ok⟩
      cases ok
      · right; rfl
      · rcases hr : runReceiver rest rs with ⟨rest1, n, e⟩
        have := ih rs
        rw [hr] at this
        simpa using this

/-! ### Claim C3

Spec: for every slot below the high-water mark whose status is not
Success, result(i) returns a None payload regardless of the op kind.  The
code returns the slot value_ptr unconditionally, and for ops that staged a
request value (Insert, AtomicIncDec, RangeQuery) that pointer is the
staged request value, not NULL. -/
/-- Claim C3 counterexample: a one-op batch holding an Insert whose value
[118] was staged at add time; the server answers with status -6 and
value_len 0.  result(0) then returns status -6 together with the staged
request-value pointer, which is not NULL, contradicting the claimed None
payload for every failed op. -/
theorem claim_C3_counterexample :
    (rioc_batch_get_response_async
        (run_response_thread
          (rioc_batch_add_insert rioc_batch_create (some [107]) 1 (some [118]) 1 5).2
          [{ status := -6, value_len := 0, bytes := [], entries := [] }]) 0)
      = (-6, some (ValuePtr.staged [118], 0)) ∧
      ValuePtr.staged [118] ≠ ValuePtr.null ∧ (-6 : Int) ≠ RIOC_SUCCESS := by
  decide

/-- Claim C3, amended: for an index below the high-water mark, result(i)
returns the stored response status and value_len together with the slot
value_ptr as it stands; when the op had no staged value (NULL value_ptr,
as for Get and Delete) and the failed response carried value_len 0, that
payload is indeed (NULL, 0), but for ops that staged a request value the
returned pointer is the staged value, so the payload is not None
regardless of operation kind. -/
theorem claim_C3 (b : Batch) (resps : List OpResp) (i : Nat)
    (h1 : i < (run_response_thread b resps).responses_received)
    (_h2 : (resps.getD i default).status ≠ RIOC_SUCCESS) :
    (rioc_batch_get_response_async (run_response_thread b resps) i).1
        = (resps.getD i default).status ∧
    (rioc_batch_get_response_async (run_response_thread b resps) i).2
        = some ((processOp (b.ops.getD i default) (resps.getD i default)).1.value_ptr,
            (resps.getD i default).value_len) ∧
    ((b.ops.getD i default).value_ptr = ValuePtr.null →
      (resps.getD i default).value_len = 0 →
      (rioc_batch_get_response_async (run_response_thread b resps) i).2
        = some (ValuePtr.null, 0)) := by
  rcases hr : runReceiver b.ops resps with ⟨ops1, n, e⟩
  have htr : run_response_thread b resps
      = { ops := ops1, responses_received := n, error := e, completed := true } := by
    unfold run_response_thread
    rw [hr]
  rw [htr] at h1 ⊢
  have hn : i < n := by simpa using h1
  have hlen : ops1.length = b.ops.length := by
    have hx := runReceiver_length b.ops resps
    rw [hr] at hx
    simpa using hx
  have hle : n ≤ b.ops.length ∧ n ≤ resps.length := by
    have hx := runReceiver_received_le b.ops resps
    rw [hr] at hx
    simpa using hx
  have hilt : i < ops1.length := by omega
  have hslot : ops1.getD i default
      = (processOp (b.ops.getD i default) (resps.getD i default)).1 := by
    have := runReceiver_slot b.ops resps i (by rw [hr]; exact hn)
    rw [hr] at this
    exact this
  have hc1 : ¬ i ≥ ops1.length := by omega
  have hc2 : ¬ i ≥ n := by omega
  have hget : rioc_batch_get_response_async
      { ops := ops1, responses_received := n, error := e, completed := true } i
      = ((ops1.getD i default).resp_status,
          some ((ops1.getD i default).value_ptr, (ops1.getD i default).resp_value_len)) := by
    simp [rioc_batch_get_response_async, hc1, hc2]
  rw [hget, hslot]
  obtain ⟨hs, hv⟩ := processOp_resp_fields (b.ops.getD i default) (resps.getD i default)
  refine ⟨hs, by rw [hv], ?_⟩
  intro hnull hzero
  rw [processOp_value_ptr_of_len_zero _ _ hzero, hnull, hv, hzero]

theorem claim_C3_witness :
    (0 < (run_response_thread (rioc_batch_add_get rioc_batch_create (some [97]) 1).2
        [{ status := -6, value_len := 0, bytes := [], entries := [] }]).responses_received) ∧
      (rioc_batch_get_response_async
        (run_response_thread (rioc_batch_add_get rioc_batch_create (some [97]) 1).2
          [{ status := -6, value_len := 0, bytes := [], entries := [] }]) 0).2
        = some (ValuePtr.null, 0) := by
  refine ⟨by decide, ?_⟩
  have h := claim_C3 (rioc_batch_add_get rioc_batch_create (some [97]) 1).2
    [{ status := -6, value_len := 0, bytes := [], entries := [] }] 0 (by decide) (by decide)
  exact h.2.2 (by decide) (by decide)

/-! ### Claim C4

Spec: a Success AtomicIncDec response is read as exactly 8 bytes and
decoded as a native-order signed 64-bit counter, and any other value_len
surfaces ProtocolError, on both the synchronous and the batch receiver
path.  The synchronous path enforces this; the batch receiver stores any
length without a check and never produces ProtocolError. -/
/-- Claim C4 counterexample: a batch holding one AtomicIncDec op receives a
Success response with value_len 4.  The receiver completes with aggregate
error Success and the slot reports status Success with length 4; no
ProtocolError is surfaced anywhere on the batch path. -/
theorem claim_C4_counterexample :
    (run_response_thread
        (rioc_batch_add_atomic_inc_dec rioc_batch_create (some [99]) 1 1 0).2
        [{ status := 0, value_len := 4, bytes := [1, 2, 3, 4], entries := [] }]).error
      = RIOC_SUCCESS ∧
    (rioc_batch_get_response_async
        (run_response_thread
          (rioc_batch_add_atomic_inc_dec rioc_batch_create (some [99]) 1 1 0).2
          [{ status := 0, value_len := 4, bytes := [1, 2, 3, 4], entries := [] }]) 0).1
      = RIOC_SUCCESS ∧
    RIOC_SUCCESS ≠ RIOC_ERR_PROTO := by
  decide

/-- Claim C4, amended: on the synchronous path rioc_atomic_inc_dec decodes
a Success response of exactly 8 bytes as the native-order signed 64-bit
counter (round-tripping the encoded delta) and surfaces ProtocolError for
any other value_len; the batch receiver path performs no such length check
and its aggregate error is never ProtocolError. -/
theorem claim_C4 :
    (∀ (k : List Nat) (kl : Nat) (x : Int), kl ≠ 0 → kl ≤ RIOC_MAX_KEY_SIZE →
      -(2 ^ 63) ≤ x → x < 2 ^ 63 →
      rioc_atomic_inc_dec (some k) kl { status := RIOC_SUCCESS, payload := i64ToBytes x }
        = (RIOC_SUCCESS, some x)) ∧
    (∀ (k : List Nat) (kl : Nat) (resp : ServerResp), kl ≠ 0 → kl ≤ RIOC_MAX_KEY_SIZE →
      resp.status = RIOC_SUCCESS → resp.payload.length ≠ 8 →
      rioc_atomic_inc_dec (some k) kl resp = (RIOC_ERR_PROTO, none)) ∧
    (∀ (ops : List BatchOp) (resps : List OpResp),
      (runReceiver ops resps).2.2 ≠ RIOC_ERR_PROTO) := by
  refine ⟨?_, ?_, ?_⟩
  · intro k kl x hkl hkls hx1 hx2
    have hparam : ¬((some k : Option (List Nat)) = none ∨ kl = 0 ∨ kl > RIOC_MAX_KEY_SIZE) := by
      simp [hkl]
      omega
    have hlen : (i64ToBytes x).length = 8 := i64ToBytes_length x
    have hrecv : recv_response { status := RIOC_SUCCESS, payload := i64ToBytes x } true
        = (RIOC_SUCCESS, some (nulTerm (i64ToBytes x)), (i64ToBytes x).length) := by
      unfold recv_response
      rw [if_neg (by simp), if_pos (by simp [hlen])]
    have htake : (nulTerm (i64ToBytes x)).take 8 = (i64ToBytes x).map some := by
      unfold nulTerm
      have h8 : ((i64ToBytes x).map some).length = 8 := by simp [hlen]
      rw [← h8, List.take_left]
    unfold rioc_atomic_inc_dec
    rw [if_neg hparam, hrecv]
    simp [hlen, htake, List.map_map, Function.comp_def, bytesToI64_i64ToBytes x hx1 hx2]
  · intro k kl resp hkl hkls hst hplen
    have hparam : ¬((some k : Option (List Nat)) = none ∨ kl = 0 ∨ kl > RIOC_MAX_KEY_SIZE) := by
      simp [hkl]
      omega
    unfold rioc_atomic_inc_dec
    rw [if_neg hparam]
    by_cases hp : 0 < resp.payload.length
    · have hrecv : recv_response resp true
          = (RIOC_SUCCESS, some (nulTerm resp.payload), resp.payload.length) := by
        unfold recv_response
        rw [if_neg (by simp [hst]), if_pos (by simp [hp])]
      rw [hrecv]
      simp [hplen]
    · have hrecv : recv_response resp true = (RIOC_SUCCESS, none, 0) := by
        unfold recv_response
        rw [if_neg (by simp [hst]), if_neg (by simp [hp])]
      rw [hrecv]
      simp
  · intro ops resps
    rcases runReceiver_error_cases ops resps with h | h <;> rw [h] <;> decide

theorem claim_C4_witness :
    (1 : Nat) ≠ 0 ∧
      rioc_atomic_inc_dec (some [99]) 1 { status := RIOC_SUCCESS, payload := i64ToBytes 5 }
        = (RIOC_SUCCESS, some 5) ∧
      rioc_atomic_inc_dec (some [99]) 1 { status := RIOC_SUCCESS, payload := [1, 2, 3] }
        = (RIOC_ERR_PROTO, none) := by
  refine ⟨by decide, claim_C4.1 [99] 1 5 (by decide) (by decide) (by decide) (by decide), ?_⟩
  exact claim_C4.2.1 [99] 1 { status := RIOC_SUCCESS, payload := [1, 2, 3] }
    (by decide) (by decide) (by decide) (by decide)

/-! ### Claim C10

Buffers handed to the caller for Get payloads and range entries are
allocated one byte longer than the reported length and NUL-terminated at
the reported length; the batch-path AtomicIncDec buffer is allocated
length + 1 but its last byte is never written. -/
/-- Claim C10: (sync path) a Success Get response with a non-empty payload
yields a buffer of length payload + 1, NUL-terminated at index value_len,
with value_len the payload length; (batch path) a Get op with value_len
above 0 yields a heap buffer of length value_len + 1 NUL-terminated at
value_len; an AtomicIncDec op yields a heap buffer of length value_len + 1
whose last byte is unwritten; every decoded range entry has key and value
buffers of length len + 1, NUL-terminated at len. -/
theorem claim_C10 :
    (∀ resp : ServerResp, resp.status = RIOC_SUCCESS → 0 < resp.payload.length →
      recv_response resp true
          = (RIOC_SUCCESS, some (nulTerm resp.payload), resp.payload.length) ∧
        (nulTerm resp.payload).length = resp.payload.length + 1 ∧
        (nulTerm resp.payload).getD resp.payload.length none = some 0) ∧
    (∀ (op : BatchOp) (r : OpResp), op.header.command = RIOC_CMD_GET → 0 < r.value_len →
      r.value_len ≤ r.bytes.length →
      (processOp op r).1.value_ptr
          = ValuePtr.heap ((r.bytes.take r.value_len).map some ++ [some 0]) ∧
        ((r.bytes.take r.value_len).map some ++ [some 0]).length = r.value_len + 1 ∧
        ((r.bytes.take r.value_len).map some ++ [some 0]).getD r.value_len none = some 0) ∧
    (∀ (op : BatchOp) (r : OpResp), op.header.command = RIOC_CMD_ATOMIC_INC_DEC →
      0 < r.value_len → r.value_len ≤ r.bytes.length →
      (processOp op r).1.value_ptr
          = ValuePtr.heap ((r.bytes.take r.value_len).map some ++ [none]) ∧
        ((r.bytes.take r.value_len).map some ++ [none]).length = r.value_len + 1 ∧
        ((r.bytes.take r.value_len).map some ++ [none]).getD r.value_len none = none) ∧
    (∀ e : List Nat × List Nat,
      (mkRangeEntry e).key.length = (mkRangeEntry e).key_len + 1 ∧
      (mkRangeEntry e).key.getD (mkRangeEntry e).key_len none = some 0 ∧
      (mkRangeEntry e).value.length = (mkRangeEntry e).value_len + 1 ∧
      (mkRangeEntry e).value.getD (mkRangeEntry e).value_len none = some 0) := by
  refine ⟨?_, ?_, ?_, ?_⟩
  · intro resp hst hp
    refine ⟨?_, nulTerm_length resp.payload, nulTerm_terminator resp.payload⟩
    unfold recv_response
    rw [if_neg (by simp [hst]), if_pos (by simp [hp])]
  · intro op r hcmd hv hb
    have hlen : ((r.bytes.take r.value_len).map some).length = r.value_len := by
      simp
      omega
    refine ⟨?_, by simp [hlen, hb], ?_⟩
    · simp only [processOp]
      rw [if_pos ⟨Or.inl hcmd, hv⟩, if_neg (by omega)]
      simp [hcmd]
    · have h := getD_append_singleton ((r.bytes.take r.value_len).map some)
        (some 0) (none : Option Nat)
      rw [hlen] at h
      exact h
  · intro op r hcmd hv hb
    have hget : ¬ op.header.command = RIOC_CMD_GET := by
      rw [hcmd]; decide
    have hlen : ((r.bytes.take r.value_len).map some).length = r.value_len := by
      simp
      omega
    refine ⟨?_, by simp [hlen, hb], ?_⟩
    · simp only [processOp]
      rw [if_pos ⟨Or.inr hcmd, hv⟩, if_neg (by omega)]
      simp [hget]
    · have h := getD_append_singleton ((r.bytes.take r.value_len).map some)
        (none : Option Nat) (none : Option Nat)
      rw [hlen] at h
      exact h
  · intro e
    exact ⟨nulTerm_length e.1, nulTerm_terminator e.1, nulTerm_length e.2,
      nulTerm_terminator e.2⟩

theorem claim_C10_witness :
    ((0 : Int) = RIOC_SUCCESS ∧ 0 < ([118] : List Nat).length) ∧
      recv_response { status := 0, payload := [118] } true
        = (RIOC_SUCCESS, some [some 118, some 0], 1) := by
  refine ⟨⟨by decide, by decide⟩, ?_⟩
  have h := (claim_C10.1 { status := 0, payload := [118] } (by decide) (by decide)).1
  simpa [nulTerm] using h

/-! ### Claim C7

rioc_tls_writev chunks the iovec data through a 16000-byte buffer; the
chunk writes concatenate to exactly the bytes a plain vectored send would
deliver is the refinement to establish. -/
theorem writevIovLoop_flatten (isLast : Bool) (data chunk : List Nat) :
    (writevIovLoop isLast data chunk).1.flatten ++ (writevIovLoop isLast data chunk).2
      = chunk ++ data := by
  induction isLast, data, chunk using writevIovLoop.induct with
  | case1 isLast chunk => simp [writevIovLoop]
  | case2 isLast d ds chunk hcond ws c1 hrec ih =>
    rw [writevIovLoop]
    rw [if_pos hcond, hrec]
    rw [hrec] at ih
    simp only [List.flatten_cons]
    rw [List.append_assoc, ih]
    simp [List.take_append_drop]
  | case3 isLast d ds chunk hcond =>
    rw [writevIovLoop, if_neg hcond]
    simp

theorem writevIovs_cons_cons (iov iov2 : List Nat) (rest2 : List (List Nat))
    (chunk : List Nat) :
    writevIovs (iov :: iov2 :: rest2) chunk
      = ((writevIovLoop false iov chunk).1
          ++ (writevIovs (iov2 :: rest2) (writevIovLoop false iov chunk).2).1,
         (writevIovs (iov2 :: rest2) (writevIovLoop false iov chunk).2).2) := rfl

theorem writevIovs_flatten (iovs : List (List Nat)) : ∀ chunk : List Nat,
    (writevIovs iovs chunk).1.flatten ++ (writevIovs iovs chunk).2
      = chunk ++ iovs.flatten := by
  induction iovs with
  | nil => intro chunk; simp [writevIovs]
  | cons iov rest ih =>
    intro chunk
    cases rest with
    | nil =>
      have h := writevIovLoop_flatten true iov chunk
      simpa [writevIovs] using h
    | cons iov2 rest2 =>
      rw [writevIovs_cons_cons]
      have h1 := writevIovLoop_flatten false iov chunk
      have h2 := ih (writevIovLoop false iov chunk).2
      simp only [List.flatten_append, List.flatten_cons]
      rw [List.append_assoc, h2, ← List.append_assoc, h1, List.append_assoc]
      simp

/-- Claim C7: the byte stream rioc_tls_writev hands to the TLS transport -
the concatenation of its chunk writes - equals the concatenation of the
iovec buffers in order, exactly the stream writev_all delivers on a plain
transport; and every chunk written is at most RIOC_TLS_CHUNK_SIZE = 16000
bytes long. -/
theorem rioc_tls_writev_eq (iovs : List (List Nat)) :
    rioc_tls_writev iovs
      = if 0 < (writevIovs iovs []).2.length then
          (writevIovs iovs []).1 ++ [(writevIovs iovs []).2]
        else (writevIovs iovs []).1 := rfl

theorem writevIovLoop_bound (isLast : Bool) (data chunk : List Nat) :
    chunk.length ≤ RIOC_TLS_CHUNK_SIZE →
      (∀ w ∈ (writevIovLoop isLast data chunk).1, w.length ≤ RIOC_TLS_CHUNK_SIZE) ∧
        (writevIovLoop isLast data chunk).2.length ≤ RIOC_TLS_CHUNK_SIZE := by
  induction isLast, data, chunk using writevIovLoop.induct with
  | case1 isLast chunk =>
    intro h
    exact ⟨by simp [writevIovLoop], by simpa [writevIovLoop] using h⟩
  | case2 isLast d ds chunk hcond ws c1 hrec ih =>
    intro h
    rw [writevIovLoop, if_pos hcond, hrec]
    rw [hrec] at ih
    obtain ⟨ih1, ih2⟩ := ih (by simp)
    refine ⟨?_, ih2⟩
    intro w hw
    rcases List.mem_cons.mp hw with rfl | hw2
    · simp only [List.length_append, List.length_take, RIOC_TLS_CHUNK_SIZE] at h ⊢
      omega
    · exact ih1 w hw2
  | case3 isLast d ds chunk hcond =>
    intro h
    rw [writevIovLoop, if_neg hcond]
    rw [not_or] at hcond
    refine ⟨by simp, ?_⟩
    simp only [List.length_cons, RIOC_TLS_CHUNK_SIZE] at hcond
    simp only [List.length_append, List.length_cons, RIOC_TLS_CHUNK_SIZE] at h ⊢
    omega

theorem writevIovs_bound (iovs : List (List Nat)) : ∀ chunk : List Nat,
    chunk.length ≤ RIOC_TLS_CHUNK_SIZE →
      (∀ w ∈ (writevIovs iovs chunk).1, w.length ≤ RIOC_TLS_CHUNK_SIZE) ∧
        (writevIovs iovs chunk).2.length ≤ RIOC_TLS_CHUNK_SIZE := by
  induction iovs with
  | nil =>
    intro chunk h
    exact ⟨by simp [writevIovs], by simpa [writevIovs] using h⟩
  | cons iov rest ih =>
    intro chunk h
    cases rest with
    | nil =>
      have hb := writevIovLoop_bound true iov chunk h
      simpa [writevIovs] using hb
    | cons iov2 rest2 =>
      rw [writevIovs_cons_cons]
      have hb1 := writevIovLoop_bound false iov chunk h
      have hb2 := ih (writevIovLoop false iov chunk).2 hb1.2
      refine ⟨?_, hb2.2⟩
      intro w hw
      rcases List.mem_append.mp hw with hw1 | hw2
      · exact hb1.1 w hw1
      · exact hb2.1 w hw2

/-- Claim C7: the byte stream rioc_tls_writev hands to the TLS transport -
the concatenation of its chunk writes - equals the concatenation of the
iovec buffers in order, exactly the stream writev_all delivers on a plain
transport; and every chunk written is at most RIOC_TLS_CHUNK_SIZE = 16000
bytes long. -/
theorem claim_C7 (iovs : List (List Nat)) :
    (rioc_tls_writev iovs).flatten = writev_all_stream iovs ∧
      ∀ w ∈ rioc_tls_writev iovs, w.length ≤ RIOC_TLS_CHUNK_SIZE := by
  constructor
  · rw [rioc_tls_writev_eq]
    have hj := writevIovs_flatten iovs []
    simp only [List.nil_append] at hj
    by_cases hc : 0 < (writevIovs iovs []).2.length
    · rw [if_pos hc, List.flatten_append]
      simpa [writev_all_stream] using hj
    · have hnil : (writevIovs iovs []).2 = [] := by
        have : (writevIovs iovs []).2.length = 0 := by omega
        exact List.length_eq_zero.mp this
      rw [if_neg hc]
      rw [hnil, List.append_nil] at hj
      rw [hj]
      rfl
  · rw [rioc_tls_writev_eq]
    have hb := writevIovs_bound iovs [] (by simp)
    intro w hw
    by_cases hc : 0 < (writevIovs iovs []).2.length
    · rw [if_pos hc] at hw
      rcases List.mem_append.mp hw with hw1 | hw2
      · exact hb.1 w hw1
      · rw [List.mem_singleton.mp hw2]
        exact hb.2
    · rw [if_neg hc] at hw
      exact hb.1 w hw

end Rioc

